import Mathlib

/-!
Shallow embedding of the MFT (My Favorite Things) crawler core
(`scripts/crawler.js`): per-source fetch, snapshot comparison, line diff,
bounded history update, and registry metadata update, together with proofs
of the spec's testable properties.

External effects are modelled explicitly:
* the network fetch (`fetchContent`) is an oracle `Env.fetch` returning
  `none` on failure (the JS function catches every error and returns
  `null`);
* the MD5 content hash (`generateHash`, from node's `crypto`) is an
  abstract deterministic function `Env.hash`;
* the snapshot directory is an association list from feed id to file
  content, with per-id read/write fault oracles standing for `fs` errors
  (a rejected promise is an `Except.error`; `loadSnapshot` catches it,
  `saveSnapshot` does not);
* `new Date().toISOString()`, captured once per run, is `Env.now`, and the
  successive values of `Date.now()` observed at each ChangeRecord creation
  are `Env.dateNow 0`, `Env.dateNow 1`, ….
-/

namespace MFT

/-- Result of a successful `fetchContent` call: the extracted text of the
selected region and the page title (the JS falls back to the URL when the
`title` element is empty). -/
structure FetchResult where
  content : String
  title : String
deriving DecidableEq, Repr

/-- One tracked source from `data/feeds.json` (the Feed Registry). -/
structure Feed where
  id : String
  url : String
  title : String
  tags : List String
  selector : Option String
  addedAt : String
  lastChecked : Option String
  lastUpdated : Option String
deriving DecidableEq, Repr

/-- One element of a ChangeRecord's `diff` array: a kind tag
(the string "added" or "removed") and the truncated segment text. -/
structure DiffSegment where
  type : String
  content : String
deriving DecidableEq, Repr

/-- One entry of `data/history.json` (`updates` array): a detected change
with denormalized source metadata and the recorded diff. -/
structure ChangeRecord where
  id : String
  feedId : String
  feedTitle : String
  url : String
  tags : List String
  detectedAt : String
  diff : List DiffSegment
  diffSummary : String
deriving DecidableEq, Repr

/-- One output part of the line diff, mirroring the shape of a `jsdiff`
change object: `added`/`removed` flags (both false for an unchanged run)
and the joined text of the run. -/
structure DiffPart where
  added : Bool
  removed : Bool
  value : String
deriving DecidableEq, Repr

/-- A single line classified by the diff before runs are merged. -/
inductive LineChange where
  | same (s : String)
  | add (s : String)
  | rem (s : String)
deriving DecidableEq, Repr

/-- Modelled from the spec: the Diff Engine "treats both texts as
sequences of lines" (the `diff` library is an external dependency whose
source is not part of this repository). Splitting on the newline
character yields the line tokens; the accumulator collects the current
line's characters in reverse. -/
def splitLinesAux : List Char → List Char → List String
  | [], acc => [String.mk acc.reverse]
  | c :: cs, acc =>
    if c = '\n' then String.mk acc.reverse :: splitLinesAux cs []
    else splitLinesAux cs (c :: acc)

/-- Modelled from the spec: the line tokens of a text, split at newlines. -/
def splitLines (s : String) : List String := splitLinesAux s.data []

/-- Modelled from the spec: length of a longest common subsequence of two
line sequences, the quantity a "standard longest-common-subsequence-style
line diff" maximises. The fuel argument (an upper bound on the total
number of lines consumed) makes the double recursion structural; the
`lcsLen` wrapper supplies sufficient fuel. -/
def lcsLenFuel : Nat → List String → List String → Nat
  | 0, _, _ => 0
  | Nat.succ _, [], _ => 0
  | Nat.succ _, _ :: _, [] => 0
  | Nat.succ fuel, x :: xs, y :: ys =>
    if x = y then lcsLenFuel fuel xs ys + 1
    else max (lcsLenFuel fuel xs (y :: ys)) (lcsLenFuel fuel (x :: xs) ys)

/-- Modelled from the spec: longest-common-subsequence length. -/
def lcsLen (xs ys : List String) : Nat := lcsLenFuel (xs.length + ys.length) xs ys

/-- Modelled from the spec: an LCS line diff producing an ordered sequence
of per-line classifications (unchanged, added, removed); at a mismatch a
removal is emitted before an addition, as `jsdiff` orders them. The fuel
argument makes the double recursion structural; each step consumes at
least one line of one input, so `diffList` supplies sufficient fuel. -/
def diffListFuel : Nat → List String → List String → List LineChange
  | 0, _, _ => []
  | Nat.succ _, [], [] => []
  | Nat.succ fuel, [], y :: ys => .add y :: diffListFuel fuel [] ys
  | Nat.succ fuel, x :: xs, [] => .rem x :: diffListFuel fuel xs []
  | Nat.succ fuel, x :: xs, y :: ys =>
    if x = y then .same x :: diffListFuel fuel xs ys
    else if lcsLen (x :: xs) ys ≤ lcsLen xs (y :: ys) then
      .rem x :: diffListFuel fuel xs (y :: ys)
    else
      .add y :: diffListFuel fuel (x :: xs) ys

/-- Modelled from the spec: the LCS line diff of two line sequences. -/
def diffList (xs ys : List String) : List LineChange :=
  diffListFuel (xs.length + ys.length) xs ys

/-- The `DiffPart` holding a single classified line. -/
def toPart : LineChange → DiffPart
  | .same s => { added := false, removed := false, value := s }
  | .add s => { added := true, removed := false, value := s }
  | .rem s => { added := false, removed := true, value := s }

/-- Modelled from the spec: consecutive lines of the same kind are merged
into one change object whose value joins the lines, as the `diff` library
groups runs. -/
def groupParts : List LineChange → List DiffPart
  | [] => []
  | c :: cs =>
    match groupParts cs with
    | [] => [toPart c]
    | p :: ps =>
      if (toPart c).added = p.added ∧ (toPart c).removed = p.removed then
        { added := p.added, removed := p.removed,
          value := (toPart c).value ++ "\n" ++ p.value } :: ps
      else
        toPart c :: p :: ps

/-- Modelled from the spec: `Diff.diffLines` of the external `diff`
library, an LCS-style line diff returning ordered change objects. -/
def diffLinesModel (oldContent newContent : String) : List DiffPart :=
  groupParts (diffList (splitLines oldContent) (splitLines newContent))

/-- `calculateDiff` (crawler.js lines 99-102): run the line diff and keep
only the parts marked added or removed. -/
def calculateDiff (oldContent newContent : String) : List DiffPart :=
  (diffLinesModel oldContent newContent).filter fun part => part.added || part.removed

/-- Association-list lookup, modelling a read of `snapshots/<id>.txt`. -/
def getStore : List (String × String) → String → Option String
  | [], _ => none
  | (k, v) :: rest, key => if k = key then some v else getStore rest key

/-- Association-list overwrite-or-insert, modelling a write of
`snapshots/<id>.txt`. -/
def setStore : List (String × String) → String → String → List (String × String)
  | [], key, val => [(key, val)]
  | (k, v) :: rest, key, val =>
    if k = key then (key, val) :: rest else (k, v) :: setStore rest key val

/-- Crawl-pass environment: the external collaborators of one run. -/
structure Env where
  fetch : String → String → Option FetchResult
  hash : String → String
  readFault : String → Bool
  writeFault : String → Bool
  now : String
  dateNow : Nat → Nat

/-- In-memory mutable state threaded through the crawl loop: the snapshot
directory, `historyData.updates`, `updatedCount`, and the number of
ChangeRecords created so far (indexing `Env.dateNow`). -/
structure St where
  snapFiles : List (String × String)
  updates : List ChangeRecord
  updatedCount : Nat
  recIdx : Nat
deriving DecidableEq, Repr

/-- `loadSnapshot` (crawler.js lines 84-91): read the snapshot file,
returning null both when the file is missing and when the read throws
(the catch block swallows every error). -/
def loadSnapshot (env : Env) (files : List (String × String)) (feedId : String) :
    Option String :=
  if env.readFault feedId then none else getStore files feedId

/-- `saveSnapshot` (crawler.js lines 74-77): write the snapshot file.
There is no catch: a write fault rejects, propagating out of `crawl`. -/
def saveSnapshot (env : Env) (files : List (String × String))
    (feedId content : String) : Except String (List (String × String)) :=
  if env.writeFault feedId then .error "snapshot write failed"
  else .ok (setStore files feedId content)

/-- JS `someString.substring(0, n)`: at most the first `n` characters. -/
def truncateTo (n : Nat) (s : String) : String := ⟨s.data.take n⟩

/-- Metadata update applied on every successful fetch (crawler.js lines
132-136): set `lastChecked` to the run timestamp and adopt the fetched
page title when it is non-empty (JS truthiness of a string) and differs
from the bare URL. -/
def updateMeta (now : String) (result : FetchResult) (feed : Feed) : Feed :=
  if result.title ≠ "" ∧ result.title ≠ feed.url then
    { feed with lastChecked := some now, title := result.title }
  else { feed with lastChecked := some now }

/-- The ChangeRecord pushed onto `historyData.updates` (crawler.js lines
150-162): id from the source id and the wall-clock time at creation,
denormalized feed metadata, the run timestamp, the filtered diff with each
part's text truncated to 500 characters, and the added/removed counts. -/
def mkChangeRecord (env : Env) (recIdx : Nat) (feed1 : Feed)
    (prev newContent : String) : ChangeRecord :=
  let diff := calculateDiff prev newContent
  { id := feed1.id ++ "-" ++ toString (env.dateNow recIdx)
    feedId := feed1.id
    feedTitle := feed1.title
    url := feed1.url
    tags := feed1.tags
    detectedAt := env.now
    diff := diff.map fun part =>
      { type := if part.added then "added" else "removed"
        content := truncateTo 500 part.value }
    diffSummary := "+" ++ toString (diff.filter fun p => p.added).length
      ++ "件 / -" ++ toString (diff.filter fun p => p.removed).length ++ "件" }

/-- One iteration of the crawl loop (crawler.js lines 117-174) for a
single feed: fetch (skip on failure), load the previous snapshot, update
metadata, then branch on first-seen / changed / unchanged. The JS mutates
the feed's metadata once before the branch; as `updateMeta` is pure, the
same value is written at each branch result here. An `Except` error is an
uncaught snapshot-write rejection (the JS then rejects `crawl()`'s
promise: nothing is persisted and the remaining feeds are not visited). -/
def processFeed (env : Env) (st : St) (feed : Feed) : Except String (Feed × St) :=
  match env.fetch feed.url (feed.selector.getD "body") with
  | none => .ok (feed, st)
  | some result =>
    match loadSnapshot env st.snapFiles feed.id with
    | none =>
      match saveSnapshot env st.snapFiles feed.id result.content with
      | .error e => .error e
      | .ok files => .ok (updateMeta env.now result feed, { st with snapFiles := files })
    | some prev =>
      if env.hash prev ≠ env.hash result.content then
        match saveSnapshot env st.snapFiles feed.id result.content with
        | .error e => .error e
        | .ok files =>
          .ok ({ updateMeta env.now result feed with lastUpdated := some env.now },
            { snapFiles := files
              updates := mkChangeRecord env st.recIdx (updateMeta env.now result feed)
                prev result.content :: st.updates
              updatedCount := st.updatedCount + 1
              recIdx := st.recIdx + 1 })
      else .ok (updateMeta env.now result feed, st)

/-- The sequential crawl loop over all registered feeds, threading the
in-memory state; an uncaught per-feed rejection aborts the remainder. -/
def crawlGo (env : Env) : List Feed → St → Except String (List Feed × St)
  | [], st => .ok ([], st)
  | f :: fs, st =>
    match processFeed env st f with
    | .error e => .error e
    | .ok (f', st') =>
      match crawlGo env fs st' with
      | .error e => .error e
      | .ok (fs', st'') => .ok (f' :: fs', st'')

/-- The data persisted at the end of a successful run: the updated
registry, the capped history, the snapshot directory, and the reported
update count. -/
structure CrawlOutput where
  feeds : List Feed
  updates : List ChangeRecord
  snapFiles : List (String × String)
  updatedCount : Nat
deriving DecidableEq, Repr

/-- `crawl` (crawler.js lines 107-184): process every feed sequentially,
then cap the history at the 100 newest entries (line 177) and persist. -/
def crawl (env : Env) (feeds : List Feed) (history : List ChangeRecord)
    (snapFiles : List (String × String)) : Except String CrawlOutput :=
  match crawlGo env feeds
      { snapFiles := snapFiles, updates := history, updatedCount := 0, recIdx := 0 } with
  | .error e => .error e
  | .ok (fs', st) =>
    .ok { feeds := fs', updates := st.updates.take 100
          snapFiles := st.snapFiles, updatedCount := st.updatedCount }

/-! Concrete fixtures used to instantiate the theorems on executable
inputs. The hash oracle is the identity function, which is deterministic
and injective on the tiny inputs used here, standing in for MD5. -/

/-- Fixture environment: every fetch succeeds with a three-line body and
a fresh page title. -/
def envA : Env :=
  { fetch := fun _ _ => some { content := "Hello\nWorld\nFoo", title := "NewTitle" }
    hash := fun s => s
    readFault := fun _ => false
    writeFault := fun _ => false
    now := "2026-02-03T04:05:06.000Z"
    dateNow := fun k => 1700000000000 + k }

/-- The fetch result produced by `envA`. -/
def resA : FetchResult := { content := "Hello\nWorld\nFoo", title := "NewTitle" }

/-- Fixture feed with an existing two-line snapshot. -/
def feedA : Feed :=
  { id := "s1", url := "https://example.com", title := "Old Title"
    tags := ["tech"], selector := some "article"
    addedAt := "2026-01-19T00:00:00+09:00", lastChecked := none, lastUpdated := none }

/-- Fixture initial state: one stored snapshot for `feedA`, empty history. -/
def stA : St :=
  { snapFiles := [("s1", "Hello\nWorld")], updates := [], updatedCount := 0, recIdx := 0 }

/-- `feedA` after the metadata update of a successful `envA` fetch. -/
def feedA1 : Feed := updateMeta envA.now resA feedA

/-- `feedA` after a detected change: metadata updated and `lastUpdated` set. -/
def feedA2 : Feed := { feedA1 with lastUpdated := some envA.now }

/-- The ChangeRecord produced for `feedA` by the `envA` pass. -/
def newRecA : ChangeRecord := mkChangeRecord envA 0 feedA1 "Hello\nWorld" "Hello\nWorld\nFoo"

/-- State after processing `feedA` under `envA`. -/
def stA1 : St :=
  { snapFiles := [("s1", "Hello\nWorld\nFoo")], updates := [newRecA]
    updatedCount := 1, recIdx := 1 }

/-- Fixture environment whose fetch returns content identical to the
stored snapshot (the unchanged case) but a fresh page title. -/
def envU : Env :=
  { envA with fetch := fun _ _ => some { content := "Hello\nWorld", title := "NewTitle" } }

/-- The fetch result produced by `envU`. -/
def resU : FetchResult := { content := "Hello\nWorld", title := "NewTitle" }

/-- `feedA` after the metadata update of a successful `envU` fetch. -/
def feedU1 : Feed := updateMeta envU.now resU feedA

/-- Fixture environment where every fetch fails (timeout / network error /
non-success status: `fetchContent` returns null). -/
def envN : Env := { envA with fetch := fun _ _ => none }

/-- Fixture environment where every snapshot read throws. -/
def envR : Env := { envA with readFault := fun _ => true }

/-- Fixture environment where the snapshot write for feed `s1` throws. -/
def envW : Env := { envA with writeFault := fun i => i == "s1" }

/-- A second fixture feed, processed after `feedA` in multi-feed runs. -/
def feedB : Feed := { feedA with id := "s2", url := "https://other.example" }

/-- A dummy pre-existing history entry. -/
def mkDummy (k : Nat) : ChangeRecord :=
  { id := toString k, feedId := "old", feedTitle := "", url := "", tags := []
    detectedAt := "", diff := [], diffSummary := "" }

/-- One hundred pre-existing history entries, newest-first; the oldest is
`mkDummy 99` at the tail. -/
def hist100 : List ChangeRecord := (List.range 100).map mkDummy

/-- Expected output of running `crawl` under `envA` on `[feedA]` with a
full history: the new record is prepended and the oldest entry dropped. -/
def outA : CrawlOutput :=
  { feeds := [feedA2], updates := newRecA :: hist100.take 99
    snapFiles := [("s1", "Hello\nWorld\nFoo")], updatedCount := 1 }

/-! Helper lemmas about the store and the metadata update. -/

theorem getStore_setStore_self (files : List (String × String)) (k v : String) :
    getStore (setStore files k v) k = some v := by
  induction files with
  | nil => simp [setStore, getStore]
  | cons kv rest ih =>
    by_cases h : kv.1 = k
    · simp [setStore, getStore, h]
    · simp [setStore, getStore, h, ih]

theorem updateMeta_id (now : String) (r : FetchResult) (f : Feed) :
    (updateMeta now r f).id = f.id := by
  unfold updateMeta; split <;> rfl

theorem updateMeta_url (now : String) (r : FetchResult) (f : Feed) :
    (updateMeta now r f).url = f.url := by
  unfold updateMeta; split <;> rfl

theorem updateMeta_tags (now : String) (r : FetchResult) (f : Feed) :
    (updateMeta now r f).tags = f.tags := by
  unfold updateMeta; split <;> rfl

theorem updateMeta_selector (now : String) (r : FetchResult) (f : Feed) :
    (updateMeta now r f).selector = f.selector := by
  unfold updateMeta; split <;> rfl

theorem updateMeta_addedAt (now : String) (r : FetchResult) (f : Feed) :
    (updateMeta now r f).addedAt = f.addedAt := by
  unfold updateMeta; split <;> rfl

theorem updateMeta_lastUpdated (now : String) (r : FetchResult) (f : Feed) :
    (updateMeta now r f).lastUpdated = f.lastUpdated := by
  unfold updateMeta; split <;> rfl

theorem updateMeta_lastChecked (now : String) (r : FetchResult) (f : Feed) :
    (updateMeta now r f).lastChecked = some now := by
  unfold updateMeta; split <;> rfl

theorem updateMeta_title (now : String) (r : FetchResult) (f : Feed) :
    (updateMeta now r f).title = f.title ∨
      (r.title ≠ "" ∧ r.title ≠ f.url ∧ (updateMeta now r f).title = r.title) := by
  unfold updateMeta
  split
  · next h => exact .inr ⟨h.1, h.2, rfl⟩
  · exact .inl rfl

/-! Helper lemmas computing `processFeed` on each branch of the crawl loop. -/

theorem processFeed_fetch_none (env : Env) (st : St) (feed : Feed)
    (hf : env.fetch feed.url (feed.selector.getD "body") = none) :
    processFeed env st feed = .ok (feed, st) := by
  simp [processFeed, hf]

theorem processFeed_first_seen_eq (env : Env) (st : St) (feed : Feed) (result : FetchResult)
    (hf : env.fetch feed.url (feed.selector.getD "body") = some result)
    (hl : loadSnapshot env st.snapFiles feed.id = none)
    (hw : env.writeFault feed.id = false) :
    processFeed env st feed = .ok (updateMeta env.now result feed,
      { st with snapFiles := setStore st.snapFiles feed.id result.content }) := by
  simp [processFeed, hf, hl, saveSnapshot, hw]

theorem processFeed_unchanged_eq (env : Env) (st : St) (feed : Feed) (result : FetchResult)
    (prev : String)
    (hf : env.fetch feed.url (feed.selector.getD "body") = some result)
    (hl : loadSnapshot env st.snapFiles feed.id = some prev)
    (hh : env.hash prev = env.hash result.content) :
    processFeed env st feed = .ok (updateMeta env.now result feed, st) := by
  simp [processFeed, hf, hl, hh]

theorem processFeed_changed_eq (env : Env) (st : St) (feed : Feed) (result : FetchResult)
    (prev : String)
    (hf : env.fetch feed.url (feed.selector.getD "body") = some result)
    (hl : loadSnapshot env st.snapFiles feed.id = some prev)
    (hh : env.hash prev ≠ env.hash result.content)
    (hw : env.writeFault feed.id = false) :
    processFeed env st feed = .ok
      ({ updateMeta env.now result feed with lastUpdated := some env.now },
       { snapFiles := setStore st.snapFiles feed.id result.content
         updates := mkChangeRecord env st.recIdx (updateMeta env.now result feed)
           prev result.content :: st.updates
         updatedCount := st.updatedCount + 1
         recIdx := st.recIdx + 1 }) := by
  simp [processFeed, hf, hl, hh, saveSnapshot, hw]

theorem processFeed_write_fault_first_seen (env : Env) (st : St) (feed : Feed)
    (result : FetchResult)
    (hf : env.fetch feed.url (feed.selector.getD "body") = some result)
    (hl : loadSnapshot env st.snapFiles feed.id = none)
    (hw : env.writeFault feed.id = true) :
    processFeed env st feed = .error "snapshot write failed" := by
  simp [processFeed, hf, hl, saveSnapshot, hw]

theorem processFeed_write_fault_changed (env : Env) (st : St) (feed : Feed)
    (result : FetchResult) (prev : String)
    (hf : env.fetch feed.url (feed.selector.getD "body") = some result)
    (hl : loadSnapshot env st.snapFiles feed.id = some prev)
    (hh : env.hash prev ≠ env.hash result.content)
    (hw : env.writeFault feed.id = true) :
    processFeed env st feed = .error "snapshot write failed" := by
  simp [processFeed, hf, hl, hh, saveSnapshot, hw]

theorem crawlGo_error (env : Env) (feed : Feed) (fs : List Feed) (st : St) (e : String)
    (hpf : processFeed env st feed = .error e) :
    crawlGo env (feed :: fs) st = .error e := by
  simp [crawlGo, hpf]

/-- C1: for a source whose current extracted text hashes differently from
its stored snapshot, one crawl pass produces exactly one ChangeRecord for
that source (the single record prepended to the history, carrying the
source's id), overwrites the source's snapshot with the new text, and sets
the source's last-updated timestamp to the run timestamp. -/
theorem changed_produces_one_record (env : Env) (st : St) (feed : Feed)
    (result : FetchResult) (prev : String)
    (hf : env.fetch feed.url (feed.selector.getD "body") = some result)
    (hl : loadSnapshot env st.snapFiles feed.id = some prev)
    (hh : env.hash prev ≠ env.hash result.content)
    (hw : env.writeFault feed.id = false) :
    ∃ feed' st', processFeed env st feed = .ok (feed', st') ∧
      st'.updates = mkChangeRecord env st.recIdx (updateMeta env.now result feed)
        prev result.content :: st.updates ∧
      st'.updates.length = st.updates.length + 1 ∧
      st'.updates.head?.map ChangeRecord.feedId = some feed.id ∧
      getStore st'.snapFiles feed.id = some result.content ∧
      feed'.lastUpdated = some env.now := by
  refine ⟨_, _, processFeed_changed_eq env st feed result prev hf hl hh hw,
    rfl, by simp, ?_, ?_, rfl⟩
  · simp [mkChangeRecord, updateMeta_id]
  · exact getStore_setStore_self st.snapFiles feed.id result.content

/-- C1 witness: the theorem instantiated on the concrete fixtures. -/
theorem changed_produces_one_record_witness :
    ∃ feed' st', processFeed envA stA feedA = .ok (feed', st') ∧
      st'.updates = mkChangeRecord envA stA.recIdx (updateMeta envA.now resA feedA)
        "Hello\nWorld" resA.content :: stA.updates ∧
      st'.updates.length = stA.updates.length + 1 ∧
      st'.updates.head?.map ChangeRecord.feedId = some feedA.id ∧
      getStore st'.snapFiles feedA.id = some resA.content ∧
      feed'.lastUpdated = some envA.now :=
  changed_produces_one_record envA stA feedA resA "Hello\nWorld" rfl rfl (by decide) rfl

/-- C3: for a source with no prior snapshot, a successful fetch stores the
current extracted text as the snapshot, emits no ChangeRecord, and leaves
last-updated untouched. -/
theorem first_seen_no_record (env : Env) (st : St) (feed : Feed) (result : FetchResult)
    (hf : env.fetch feed.url (feed.selector.getD "body") = some result)
    (hl : loadSnapshot env st.snapFiles feed.id = none)
    (hw : env.writeFault feed.id = false) :
    ∃ feed' st', processFeed env st feed = .ok (feed', st') ∧
      st'.updates = st.updates ∧
      getStore st'.snapFiles feed.id = some result.content ∧
      feed'.lastUpdated = feed.lastUpdated := by
  refine ⟨_, _, processFeed_first_seen_eq env st feed result hf hl hw, rfl, ?_,
    updateMeta_lastUpdated env.now result feed⟩
  exact getStore_setStore_self st.snapFiles feed.id result.content

/-- C3 witness: a feed with an empty snapshot store under the fixture
environment. -/
theorem first_seen_no_record_witness :
    ∃ feed' st', processFeed envA { stA with snapFiles := [] } feedA = .ok (feed', st') ∧
      st'.updates = ({ stA with snapFiles := [] } : St).updates ∧
      getStore st'.snapFiles feedA.id = some resA.content ∧
      feed'.lastUpdated = feedA.lastUpdated :=
  first_seen_no_record envA { stA with snapFiles := [] } feedA resA rfl rfl rfl

/-- C4: when the current text hashes equal to the stored snapshot's hash,
the pass produces no ChangeRecord, leaves last-updated and the whole store
state (snapshot and history) unmodified, and updates last-checked. -/
theorem unchanged_no_record (env : Env) (st : St) (feed : Feed) (result : FetchResult)
    (prev : String)
    (hf : env.fetch feed.url (feed.selector.getD "body") = some result)
    (hl : loadSnapshot env st.snapFiles feed.id = some prev)
    (hh : env.hash prev = env.hash result.content) :
    ∃ feed', processFeed env st feed = .ok (feed', st) ∧
      feed'.lastUpdated = feed.lastUpdated ∧
      feed'.lastChecked = some env.now :=
  ⟨_, processFeed_unchanged_eq env st feed result prev hf hl hh,
    updateMeta_lastUpdated env.now result feed, updateMeta_lastChecked env.now result feed⟩

/-- C4 witness: the unchanged-content fixture. -/
theorem unchanged_no_record_witness :
    ∃ feed', processFeed envU stA feedA = .ok (feed', stA) ∧
      feed'.lastUpdated = feedA.lastUpdated ∧
      feed'.lastChecked = some envU.now :=
  unchanged_no_record envU stA feedA resU "Hello\nWorld" rfl rfl rfl

/-- C5 counterexample: in the unchanged case the code still adopts the
fetched page title (crawler.js lines 134-136 run before change
detection), so a field other than last-checked is modified. -/
theorem unchanged_modifies_title_cx :
    processFeed envU stA feedA = .ok (feedU1, stA) ∧ feedU1.title ≠ feedA.title := by
  exact ⟨rfl, by decide⟩

/-- C5 amended: in the unchanged case the pass takes no action on the
stores and modifies no field of the source except last-checked and,
when the fetched title is non-empty and differs from the URL, the title. -/
theorem unchanged_frame_with_title (env : Env) (st : St) (feed : Feed)
    (result : FetchResult) (prev : String)
    (hf : env.fetch feed.url (feed.selector.getD "body") = some result)
    (hl : loadSnapshot env st.snapFiles feed.id = some prev)
    (hh : env.hash prev = env.hash result.content) :
    ∃ feed', processFeed env st feed = .ok (feed', st) ∧
      feed'.id = feed.id ∧ feed'.url = feed.url ∧ feed'.tags = feed.tags ∧
      feed'.selector = feed.selector ∧ feed'.addedAt = feed.addedAt ∧
      feed'.lastUpdated = feed.lastUpdated ∧ feed'.lastChecked = some env.now ∧
      (feed'.title = feed.title ∨
        (result.title ≠ "" ∧ result.title ≠ feed.url ∧ feed'.title = result.title)) :=
  ⟨_, processFeed_unchanged_eq env st feed result prev hf hl hh,
    updateMeta_id env.now result feed, updateMeta_url env.now result feed,
    updateMeta_tags env.now result feed, updateMeta_selector env.now result feed,
    updateMeta_addedAt env.now result feed, updateMeta_lastUpdated env.now result feed,
    updateMeta_lastChecked env.now result feed, updateMeta_title env.now result feed⟩

/-- C5 amended witness: the unchanged-content fixture. -/
theorem unchanged_frame_with_title_witness :
    ∃ feed', processFeed envU stA feedA = .ok (feed', stA) ∧
      feed'.id = feedA.id ∧ feed'.url = feedA.url ∧ feed'.tags = feedA.tags ∧
      feed'.selector = feedA.selector ∧ feed'.addedAt = feedA.addedAt ∧
      feed'.lastUpdated = feedA.lastUpdated ∧ feed'.lastChecked = some envU.now ∧
      (feed'.title = feedA.title ∨
        (resU.title ≠ "" ∧ resU.title ≠ feedA.url ∧ feed'.title = resU.title)) :=
  unchanged_frame_with_title envU stA feedA resU "Hello\nWorld" rfl rfl rfl

/-- C6: when the fetch for a source fails, the pass leaves that source and
the whole in-memory state untouched, and the run continues with exactly
the processing of the remaining sources (completing iff they do). -/
theorem fetch_failure_skips (env : Env) (st : St) (feed : Feed)
    (hf : env.fetch feed.url (feed.selector.getD "body") = none) :
    processFeed env st feed = .ok (feed, st) ∧
    ∀ fs, crawlGo env (feed :: fs) st =
      (crawlGo env fs st).map fun p => (feed :: p.1, p.2) := by
  refine ⟨processFeed_fetch_none env st feed hf, fun fs => ?_⟩
  simp only [crawlGo, processFeed_fetch_none env st feed hf]
  cases h : crawlGo env fs st <;> rfl

/-- C6 witness: the failing-fetch fixture environment. -/
theorem fetch_failure_skips_witness :
    processFeed envN stA feedA = .ok (feedA, stA) ∧
    ∀ fs, crawlGo envN (feedA :: fs) stA =
      (crawlGo envN fs stA).map fun p => (feedA :: p.1, p.2) :=
  fetch_failure_skips envN stA feedA rfl

theorem loadSnapshot_read_fault (env : Env) (files : List (String × String))
    (feedId : String) (h : env.readFault feedId = true) :
    loadSnapshot env files feedId = none := by
  simp [loadSnapshot, h]

/-- C7 counterexample: a snapshot write failure is NOT recoverable
per-source. With a write fault on feed s1 (whose content changed) and a
second healthy feed s2, the whole run rejects: s2 is never processed and
nothing is persisted, contradicting the claim that a write failure does
not abort the run. -/
theorem snapshot_write_fault_aborts_cx :
    crawl envW [feedA, feedB] [] [("s1", "Hello\nWorld")] =
      .error "snapshot write failed" := by
  rfl

/-- C7 amended: a snapshot read failure is recoverable per-source and is
treated exactly as first-seen (snapshot stored, no ChangeRecord); a
snapshot write failure, however, is uncaught and aborts the whole run,
whether it happens on a first-seen or on a changed source. -/
theorem snapshot_read_recovers_write_aborts :
    (∀ (env : Env) (st : St) (feed : Feed) (result : FetchResult),
      env.fetch feed.url (feed.selector.getD "body") = some result →
      env.readFault feed.id = true → env.writeFault feed.id = false →
      ∃ feed' st', processFeed env st feed = .ok (feed', st') ∧
        st'.updates = st.updates ∧
        getStore st'.snapFiles feed.id = some result.content) ∧
    (∀ (env : Env) (st : St) (feed : Feed) (result : FetchResult),
      env.fetch feed.url (feed.selector.getD "body") = some result →
      loadSnapshot env st.snapFiles feed.id = none →
      env.writeFault feed.id = true →
      ∀ fs, crawlGo env (feed :: fs) st = .error "snapshot write failed") ∧
    (∀ (env : Env) (st : St) (feed : Feed) (result : FetchResult) (prev : String),
      env.fetch feed.url (feed.selector.getD "body") = some result →
      loadSnapshot env st.snapFiles feed.id = some prev →
      env.hash prev ≠ env.hash result.content →
      env.writeFault feed.id = true →
      ∀ fs, crawlGo env (feed :: fs) st = .error "snapshot write failed") := by
  refine ⟨fun env st feed result hf hr hw => ?_,
    fun env st feed result hf hl hw fs => ?_,
    fun env st feed result prev hf hl hh hw fs => ?_⟩
  · refine ⟨_, _, processFeed_first_seen_eq env st feed result hf
      (loadSnapshot_read_fault env st.snapFiles feed.id hr) hw, rfl, ?_⟩
    exact getStore_setStore_self st.snapFiles feed.id result.content
  · exact crawlGo_error env feed fs st _
      (processFeed_write_fault_first_seen env st feed result hf hl hw)
  · exact crawlGo_error env feed fs st _
      (processFeed_write_fault_changed env st feed result prev hf hl hh hw)

/-- C7 amended witness: the read-fault fixture recovers as first-seen; the
write-fault fixture aborts the run in both branches. -/
theorem snapshot_read_recovers_write_aborts_witness :
    (∃ feed' st', processFeed envR stA feedA = .ok (feed', st') ∧
      st'.updates = stA.updates ∧
      getStore st'.snapFiles feedA.id = some resA.content) ∧
    crawlGo envW (feedA :: [feedB]) { stA with snapFiles := [] } =
      .error "snapshot write failed" ∧
    crawlGo envW (feedA :: [feedB]) stA = .error "snapshot write failed" :=
  ⟨snapshot_read_recovers_write_aborts.1 envR stA feedA resA rfl rfl rfl,
    snapshot_read_recovers_write_aborts.2.1 envW { stA with snapFiles := [] }
      feedA resA rfl rfl rfl [feedB],
    snapshot_read_recovers_write_aborts.2.2 envW stA feedA resA "Hello\nWorld"
      rfl rfl (by decide) rfl [feedB]⟩

/-! Helper lemmas tracking `historyData.updates` across the loop. -/

theorem mkChangeRecord_feedId (env : Env) (k : Nat) (f : Feed) (p n : String) :
    (mkChangeRecord env k f p n).feedId = f.id := rfl

theorem mkChangeRecord_detectedAt (env : Env) (k : Nat) (f : Feed) (p n : String) :
    (mkChangeRecord env k f p n).detectedAt = env.now := rfl

theorem mkChangeRecord_id (env : Env) (k : Nat) (f : Feed) (p n : String) :
    (mkChangeRecord env k f p n).id = f.id ++ "-" ++ toString (env.dateNow k) := rfl

theorem mkChangeRecord_diff (env : Env) (k : Nat) (f : Feed) (p n : String) :
    (mkChangeRecord env k f p n).diff = (calculateDiff p n).map (fun part =>
      { type := if part.added then "added" else "removed"
        content := truncateTo 500 part.value }) := rfl

theorem mkChangeRecord_diffSummary (env : Env) (k : Nat) (f : Feed) (p n : String) :
    (mkChangeRecord env k f p n).diffSummary =
      "+" ++ toString ((calculateDiff p n).filter fun q => q.added).length
        ++ "件 / -" ++ toString ((calculateDiff p n).filter fun q => q.removed).length
        ++ "件" := rfl

theorem processFeed_updates_spec (env : Env) (st : St) (feed : Feed) (f' : Feed) (st' : St)
    (h : processFeed env st feed = .ok (f', st')) :
    st'.updates = st.updates ∨
      ∃ r, st'.updates = r :: st.updates ∧ r.feedId = feed.id ∧ r.detectedAt = env.now ∧
        r.id = feed.id ++ "-" ++ toString (env.dateNow st.recIdx) := by
  cases hf : env.fetch feed.url (feed.selector.getD "body") with
  | none =>
    rw [processFeed_fetch_none env st feed hf] at h
    cases h
    exact .inl rfl
  | some result =>
    cases hl : loadSnapshot env st.snapFiles feed.id with
    | none =>
      cases hw : env.writeFault feed.id with
      | false =>
        rw [processFeed_first_seen_eq env st feed result hf hl hw] at h
        cases h
        exact .inl rfl
      | true =>
        rw [processFeed_write_fault_first_seen env st feed result hf hl hw] at h
        exact absurd h (by simp)
    | some prev =>
      by_cases hh : env.hash prev = env.hash result.content
      · rw [processFeed_unchanged_eq env st feed result prev hf hl hh] at h
        cases h
        exact .inl rfl
      · cases hw : env.writeFault feed.id with
        | false =>
          rw [processFeed_changed_eq env st feed result prev hf hl hh hw] at h
          cases h
          refine .inr ⟨mkChangeRecord env st.recIdx (updateMeta env.now result feed)
            prev result.content, rfl, ?_, mkChangeRecord_detectedAt .., ?_⟩
          · rw [mkChangeRecord_feedId, updateMeta_id]
          · rw [mkChangeRecord_id, updateMeta_id]
        | true =>
          rw [processFeed_write_fault_changed env st feed result prev hf hl hh hw] at h
          exact absurd h (by simp)

theorem crawlGo_updates_spec (env : Env) :
    ∀ (feeds : List Feed) (st : St) (fs' : List Feed) (st' : St),
      crawlGo env feeds st = .ok (fs', st') →
      ∃ fresh, st'.updates = fresh ++ st.updates ∧
        (∀ r ∈ fresh, r.detectedAt = env.now ∧
          ∃ k, r.id = r.feedId ++ "-" ++ toString (env.dateNow k)) ∧
        ∀ i, fresh.countP (fun r => r.feedId == i) ≤
          feeds.countP (fun f => f.id == i) := by
  intro feeds
  induction feeds with
  | nil =>
    intro st fs' st' h
    rw [crawlGo] at h
    cases h
    exact ⟨[], rfl, by simp, by simp⟩
  | cons f fs ih =>
    intro st fs' st' h
    rw [crawlGo] at h
    cases hpf : processFeed env st f with
    | error e => rw [hpf] at h; exact absurd h (by simp)
    | ok p =>
      obtain ⟨f1, st1⟩ := p
      rw [hpf] at h
      simp only at h
      cases hgo : crawlGo env fs st1 with
      | error e => rw [hgo] at h; exact absurd h (by simp)
      | ok q =>
        obtain ⟨fs1, st2⟩ := q
        rw [hgo] at h
        simp only at h
        cases h
        obtain ⟨fresh2, hu2, hprops2, hcount2⟩ := ih _ _ _ hgo
        rcases processFeed_updates_spec env st f f1 st1 hpf with hsame |
          ⟨r, hr, hrid, hrdet, hridfmt⟩
        · refine ⟨fresh2, by rw [hu2, hsame], hprops2, fun i => ?_⟩
          calc fresh2.countP (fun r => r.feedId == i)
              ≤ fs.countP (fun f => f.id == i) := hcount2 i
            _ ≤ (f :: fs).countP (fun f => f.id == i) := by
                rw [List.countP_cons]; exact Nat.le_add_right _ _
        · refine ⟨fresh2 ++ [r], ?_, ?_, fun i => ?_⟩
          · rw [hu2, hr, List.append_assoc, List.singleton_append]
          · intro r' hr'
            rcases List.mem_append.mp hr' with hmem | hmem
            · exact hprops2 r' hmem
            · rcases List.mem_singleton.mp hmem with rfl
              exact ⟨hrdet, st.recIdx, by rw [hridfmt, hrid]⟩
          · have h1 : List.countP (fun c => c.feedId == i) (fresh2 ++ [r]) =
                List.countP (fun c => c.feedId == i) fresh2 +
                  (if (r.feedId == i) = true then 1 else 0) := by
              simp [List.countP_append, List.countP_cons]
            have h2 : List.countP (fun g => g.id == i) (f :: fs) =
                List.countP (fun g => g.id == i) fs +
                  (if (f.id == i) = true then 1 else 0) :=
              List.countP_cons _ _ _
            rw [h1, h2, hrid]
            exact Nat.add_le_add (hcount2 i) (Nat.le_refl _)

/-- C2: after a crawl pass's persistence the history length is at most the
cap of 100, and the persisted history is the new records prepended in
front of the old ones, capped to 100 (so overflow drops the tail, i.e.
the oldest entries). Concretely, with 100 existing entries and one new
change the persisted history still has length 100, its first entry is the
new record, and the previously-oldest entry (`mkDummy 99`) is gone. -/
theorem history_cap_fifo :
    (∀ (env : Env) (feeds : List Feed) (hist : List ChangeRecord)
        (snaps : List (String × String)) (out : CrawlOutput),
      crawl env feeds hist snaps = .ok out →
      out.updates.length ≤ 100 ∧ ∃ fresh, out.updates = (fresh ++ hist).take 100) ∧
    (crawl envA [feedA] hist100 [("s1", "Hello\nWorld")] = .ok outA ∧
      outA.updates.length = 100 ∧ outA.updates.head? = some newRecA ∧
      newRecA.feedId = feedA.id ∧ newRecA.detectedAt = envA.now ∧
      mkDummy 99 ∈ hist100 ∧ mkDummy 99 ∉ outA.updates) := by
  constructor
  · intro env feeds hist snaps out h
    rw [crawl] at h
    cases hgo : crawlGo env feeds
        { snapFiles := snaps, updates := hist, updatedCount := 0, recIdx := 0 } with
    | error e => rw [hgo] at h; exact absurd h (by simp)
    | ok p =>
      obtain ⟨fs', st'⟩ := p
      rw [hgo] at h
      simp only at h
      cases h
      obtain ⟨fresh, hu, -, -⟩ := crawlGo_updates_spec env feeds _ fs' st' hgo
      exact ⟨List.length_take_le 100 st'.updates, fresh, by rw [hu]⟩
  · exact ⟨by rfl, by decide, rfl, rfl, rfl, by decide, by decide⟩

/-- C2 witness: the bound instantiated on the concrete full-history run. -/
theorem history_cap_fifo_witness :
    outA.updates.length ≤ 100 ∧ ∃ fresh, outA.updates = (fresh ++ hist100).take 100 :=
  history_cap_fifo.1 envA [feedA] hist100 [("s1", "Hello\nWorld")] outA (by rfl)

/-- C10: every ChangeRecord created within one crawl pass carries the same
detection timestamp, the run timestamp captured once at the start of the
pass; each record's identifier is its source id joined by a hyphen with a
wall-clock reading taken at record creation (a separate clock from the run
timestamp); and when the registry's ids are unique each source yields at
most one record per pass. -/
theorem records_share_run_timestamp :
    ∀ (env : Env) (feeds : List Feed) (st : St) (fs' : List Feed) (st' : St),
      crawlGo env feeds st = .ok (fs', st') →
      ∃ fresh, st'.updates = fresh ++ st.updates ∧
        (∀ r ∈ fresh, r.detectedAt = env.now ∧
          ∃ k, r.id = r.feedId ++ "-" ++ toString (env.dateNow k)) ∧
        (∀ i, fresh.countP (fun r => r.feedId == i) ≤
          feeds.countP (fun f => f.id == i)) ∧
        ((feeds.map Feed.id).Nodup →
          ∀ i, fresh.countP (fun r => r.feedId == i) ≤ 1) := by
  intro env feeds st fs' st' h
  obtain ⟨fresh, hu, hprops, hcount⟩ := crawlGo_updates_spec env feeds st fs' st' h
  refine ⟨fresh, hu, hprops, hcount, fun hnodup i => ?_⟩
  refine (hcount i).trans ?_
  have hfc : feeds.countP (fun f => f.id == i) = (feeds.map Feed.id).count i := by
    rw [List.count, List.countP_map]
    rfl
  rw [hfc]
  exact List.nodup_iff_count_le_one.mp hnodup i

/-- C10 witness: the single-feed fixture pass. -/
theorem records_share_run_timestamp_witness :
    ∃ fresh, stA1.updates = fresh ++ stA.updates ∧
      (∀ r ∈ fresh, r.detectedAt = envA.now ∧
        ∃ k, r.id = r.feedId ++ "-" ++ toString (envA.dateNow k)) ∧
      (∀ i, fresh.countP (fun r => r.feedId == i) ≤
        [feedA].countP (fun f => f.id == i)) ∧
      (([feedA].map Feed.id).Nodup →
        ∀ i, fresh.countP (fun r => r.feedId == i) ≤ 1) :=
  records_share_run_timestamp envA [feedA] stA [feedA2] stA1 (by rfl)

/-! Helper lemmas about the Diff Engine on identical inputs. -/

theorem diffListFuel_self (l : List String) :
    ∀ n : Nat, l.length + l.length ≤ n →
      diffListFuel n l l = l.map LineChange.same := by
  induction l with
  | nil => intro n hn; cases n <;> rfl
  | cons x xs ih =>
    intro n hn
    cases n with
    | zero => simp at hn
    | succ m =>
      have hm : xs.length + xs.length ≤ m := by
        simp only [List.length_cons] at hn; omega
      simp [diffListFuel, ih m hm]

theorem diffList_self (l : List String) : diffList l l = l.map LineChange.same :=
  diffListFuel_self l (l.length + l.length) (Nat.le_refl _)

theorem groupParts_same_flags (l : List String) :
    ∀ p ∈ groupParts (l.map LineChange.same), p.added = false ∧ p.removed = false := by
  induction l with
  | nil => intro p hp; simp [groupParts] at hp
  | cons x xs ih =>
    intro p hp
    rw [List.map_cons] at hp
    cases hgp : groupParts (List.map LineChange.same xs) with
    | nil =>
      rw [groupParts, hgp] at hp
      rcases List.mem_singleton.mp hp with rfl
      exact ⟨rfl, rfl⟩
    | cons q qs =>
      have hq := ih q (by rw [hgp]; exact List.mem_cons_self q qs)
      simp only [groupParts, hgp, toPart] at hp
      rw [if_pos ⟨hq.1.symm, hq.2.symm⟩] at hp
      rcases List.mem_cons.mp hp with rfl | htail
      · exact ⟨hq.1, hq.2⟩
      · exact ih p (by rw [hgp]; exact List.mem_cons_of_mem q htail)

/-- C8: diffing any text against itself yields zero added and zero removed
segments, so the diff output recorded to the ledger is empty. -/
theorem diff_self_empty (a : String) : calculateDiff a a = [] := by
  unfold calculateDiff diffLinesModel
  rw [diffList_self]
  refine List.filter_eq_nil_iff.mpr fun p hp => ?_
  have h := groupParts_same_flags (splitLines a) p hp
  simp [h.1, h.2]

/-- C8 witness: the theorem evaluated on a concrete two-line text. -/
theorem diff_self_empty_witness : calculateDiff "Hello\nWorld" "Hello\nWorld" = [] :=
  diff_self_empty "Hello\nWorld"

theorem truncateTo_length_le (n : Nat) (s : String) : (truncateTo n s).length ≤ n :=
  List.length_take_le n s.data

/-- C9: a changed source's ChangeRecord diff sequence is exactly the added
and removed segments of the line diff of old versus new text, in the order
the computed diff yields them (interleaved, not grouped by kind), each
segment's content truncated to at most 500 characters, and the summary
counts added and removed segments; on old text Hello-newline-World and new
text Hello-newline-World-newline-Foo the diff is one added segment Foo
with summary plus-one/minus-zero. -/
theorem change_record_diff_contents :
    (∀ (env : Env) (st : St) (feed : Feed) (result : FetchResult) (prev : String),
      env.fetch feed.url (feed.selector.getD "body") = some result →
      loadSnapshot env st.snapFiles feed.id = some prev →
      env.hash prev ≠ env.hash result.content →
      env.writeFault feed.id = false →
      ∃ feed' st' r, processFeed env st feed = .ok (feed', st') ∧
        st'.updates = r :: st.updates ∧
        r.diff = (calculateDiff prev result.content).map (fun part =>
          { type := if part.added then "added" else "removed"
            content := truncateTo 500 part.value }) ∧
        (∀ seg ∈ r.diff, seg.content.length ≤ 500) ∧
        r.diffSummary = "+" ++
          toString ((calculateDiff prev result.content).filter
            fun q => q.added).length ++ "件 / -" ++
          toString ((calculateDiff prev result.content).filter
            fun q => q.removed).length ++ "件") ∧
    (calculateDiff "Hello\nWorld" "Hello\nWorld\nFoo" =
        [{ added := true, removed := false, value := "Foo" }] ∧
      newRecA.diff = [{ type := "added", content := "Foo" }] ∧
      newRecA.diffSummary = "+1件 / -0件") := by
  constructor
  · intro env st feed result prev hf hl hh hw
    refine ⟨_, _, mkChangeRecord env st.recIdx (updateMeta env.now result feed)
        prev result.content,
      processFeed_changed_eq env st feed result prev hf hl hh hw, rfl,
      mkChangeRecord_diff .., fun seg hseg => ?_, mkChangeRecord_diffSummary ..⟩
    rw [mkChangeRecord_diff] at hseg
    rcases List.mem_map.mp hseg with ⟨part, -, rfl⟩
    exact truncateTo_length_le 500 part.value
  · exact ⟨by decide, by decide, by decide⟩

/-- C9 witness: the general statement instantiated on the fixture pass. -/
theorem change_record_diff_contents_witness :
    ∃ feed' st' r, processFeed envA stA feedA = .ok (feed', st') ∧
      st'.updates = r :: stA.updates ∧
      r.diff = (calculateDiff "Hello\nWorld" resA.content).map (fun part =>
        { type := if part.added then "added" else "removed"
          content := truncateTo 500 part.value }) ∧
      (∀ seg ∈ r.diff, seg.content.length ≤ 500) ∧
      r.diffSummary = "+" ++
        toString ((calculateDiff "Hello\nWorld" resA.content).filter
          fun q => q.added).length ++ "件 / -" ++
        toString ((calculateDiff "Hello\nWorld" resA.content).filter
          fun q => q.removed).length ++ "件" :=
  change_record_diff_contents.1 envA stA feedA resA "Hello\nWorld" rfl rfl
    (by decide) rfl

end MFT
